import Mathlib

/-!
Verification development for the listening-fidelity scoring engine of the
Spotify streaming-history tool (`monthly_analysis.py`, class `SpotifyAnalyzer`).

The Python source is shallowly embedded: dictionaries/Counters become
association lists (which preserve insertion order, as Python dicts do),
`datetime` timestamps become epoch milliseconds computed from the parsed
fields, float arithmetic on durations and scores is modelled exactly over `ℚ`,
and `math.log2`-based quantities (entropy, KL divergence) over `ℝ`.
String helpers are re-implemented over `List Char` (ASCII case folding and
whitespace trimming, which is what the analysed data exercises) so that all
pipeline functions evaluate inside the kernel.
-/

namespace SpotifyFLE

/-- A raw streaming-history event (one JSON object).  `none` models both an
absent key and JSON `null`; string fields carry the value otherwise.
Mirrors the fields read by `collect_records`. -/
structure RawEvent where
  ts : Option String
  master_metadata_track_name : Option String
  episode_name : Option String
  master_metadata_album_artist_name : Option String
  episode_show_name : Option String
  ms_played : Option Int
deriving DecidableEq

/-! ### String helpers (ASCII models of `str.lower`, `str.strip`, slicing) -/

def strLower (s : String) : String := String.mk (s.data.map Char.toLower)

def listTrim (l : List Char) : List Char :=
  ((l.dropWhile Char.isWhitespace).reverse.dropWhile Char.isWhitespace).reverse

def strTrim (s : String) : String := String.mk (listTrim s.data)

def strTake (s : String) (n : Nat) : String := String.mk (s.data.take n)

/-! ### Timestamp parsing: `datetime.strptime(ts_str, "%Y-%m-%dT%H:%M:%SZ")` -/

structure DateTimeUTC where
  year : Nat
  month : Nat
  day : Nat
  hour : Nat
  minute : Nat
  second : Nat
deriving DecidableEq

def isLeapYear (y : Nat) : Bool :=
  (y % 4 == 0 && y % 100 != 0) || (y % 400 == 0)

def daysInMonth (y m : Nat) : Nat :=
  if m == 2 then (if isLeapYear y then 29 else 28)
  else if m == 4 || m == 6 || m == 9 || m == 11 then 30
  else 31

def digitsToNat : List Char → Option Nat
  | [] => some 0
  | c :: cs =>
    if c.isDigit then
      match digitsToNat cs with
      | some n => some (((c.toNat - 48)) * 10 ^ cs.length + n)
      | none => none
    else none

/-- Strict parser for the fixed-width format `%Y-%m-%dT%H:%M:%SZ`, including
the calendar validity checks `datetime` performs (month/day ranges, leap
years). Returns `none` exactly when `strptime` raises `ValueError`. -/
def strptimeUTC (s : String) : Option DateTimeUTC :=
  match s.data with
  | [y1, y2, y3, y4, h1, mo1, mo2, h2, d1, d2, tsep, hh1, hh2, c1, mi1, mi2, c2, s1, s2, z] =>
    if h1 = '-' ∧ h2 = '-' ∧ tsep = 'T' ∧ c1 = ':' ∧ c2 = ':' ∧ z = 'Z' then
      match digitsToNat [y1, y2, y3, y4], digitsToNat [mo1, mo2], digitsToNat [d1, d2],
            digitsToNat [hh1, hh2], digitsToNat [mi1, mi2], digitsToNat [s1, s2] with
      | some y, some mo, some d, some hh, some mi, some ss =>
        if 1 ≤ y ∧ 1 ≤ mo ∧ mo ≤ 12 ∧ 1 ≤ d ∧ d ≤ daysInMonth y mo ∧
            hh ≤ 23 ∧ mi ≤ 59 ∧ ss ≤ 59 then
          some ⟨y, mo, d, hh, mi, ss⟩
        else none
      | _, _, _, _, _, _ => none
    else none
  | _ => none

def daysBeforeYear (y : Nat) : Nat :=
  (y - 1) * 365 + (y - 1) / 4 - (y - 1) / 100 + (y - 1) / 400

def daysBeforeMonth (y m : Nat) : Nat :=
  (List.range (m - 1)).foldl (fun acc i => acc + daysInMonth y (i + 1)) 0

/-- Total milliseconds since the (proleptic Gregorian) epoch `0001-01-01`;
a faithful linearisation of `datetime` for ordering and differences. -/
def toEpochMs (dt : DateTimeUTC) : Nat :=
  let days := daysBeforeYear dt.year + daysBeforeMonth dt.year dt.month + (dt.day - 1)
  (((days * 24 + dt.hour) * 60 + dt.minute) * 60 + dt.second) * 1000

/-! ### Event normalisation (`_normalize`, field fallback, `_canonicalize_track`) -/

/-- `record.get(a) or record.get(b)`: Python `or` falls through on `None`
and on the empty string. -/
def pyOrStr (a b : Option String) : Option String :=
  match a with
  | some s => if s.isEmpty then b else some s
  | none => b

/-- `_normalize`: `str(text).strip() if text else ""`. -/
def normalize_text (x : Option String) : String :=
  match x with
  | some s => if s.isEmpty then "" else strTrim s
  | none => ""

/-- `record.get("ms_played", 0) or 0`. -/
def resolveMsPlayed (m : Option Int) : Int :=
  match m with
  | none => 0
  | some v => v

/-- Case-insensitive literal match of `pat` against the head of `l`. -/
def startsWithCI (pat : List Char) (l : List Char) : Bool :=
  match pat, l with
  | [], _ => true
  | _ :: _, [] => false
  | p :: ps, c :: cs => (p.toLower == c.toLower) && startsWithCI ps cs

/-- The regex alternative ` - \d{4} Remaster` anchored at the head of `l`. -/
def yearRemasterAt (l : List Char) : Bool :=
  match l with
  | ' ' :: '-' :: ' ' :: a :: b :: c :: d :: rest =>
    a.isDigit && b.isDigit && c.isDigit && d.isDigit && startsWithCI " Remaster".data rest
  | _ => false

/-- One of the dash-suffix alternatives of the first `re.split` pattern
matches at the head of `l` (case-insensitively). -/
def versionSuffixAt (l : List Char) : Bool :=
  yearRemasterAt l ||
  startsWithCI " - Remaster".data l ||
  startsWithCI " - Live".data l ||
  startsWithCI " - Mono".data l ||
  startsWithCI " - Deluxe".data l

/-- One of the parenthesised alternatives of the second `re.split` pattern
matches at the head of `l` (case-insensitively). -/
def parenSuffixAt (l : List Char) : Bool :=
  startsWithCI " (Remastered)".data l ||
  startsWithCI " (Live)".data l ||
  startsWithCI " (Mono)".data l ||
  startsWithCI " (Deluxe)".data l ||
  startsWithCI " (Radio Edit)".data l ||
  startsWithCI " (Bonus Track)".data l

/-- `re.split(pat, s)[0]`: the text before the leftmost match of `pat`. -/
def beforeFirstMatch (p : List Char → Bool) : List Char → List Char
  | [] => []
  | c :: rest => if p (c :: rest) then [] else c :: beforeFirstMatch p rest

/-- `_canonicalize_track`: strips version suffixes to group re-release
variants, then strips surrounding whitespace. -/
def canonicalize_track (track_name : String) : String :=
  if track_name.isEmpty then ""
  else
    let clean1 := beforeFirstMatch versionSuffixAt track_name.data
    let clean2 := beforeFirstMatch parenSuffixAt clean1
    strTrim (String.mk clean2)

/-! ### Association-list helpers (Python `dict` / `Counter` with insertion order) -/

abbrev TrackId := String × String

def alistGet {α β : Type} [BEq α] (l : List (α × β)) (k : α) : Option β :=
  match l.find? (fun p => p.1 == k) with
  | some p => some p.2
  | none => none

def alistHas {α β : Type} [BEq α] (l : List (α × β)) (k : α) : Bool :=
  l.any (fun p => p.1 == k)

/-- `d[k] = v`: replace in place if present, else append (dict insertion order). -/
def alistSet {α β : Type} [BEq α] (l : List (α × β)) (k : α) (v : β) : List (α × β) :=
  if alistHas l k then l.map (fun p => if p.1 == k then (p.1, v) else p)
  else l ++ [(k, v)]

/-- `d[k] = f(d.get(k, dflt))`: Counter-style in-place accumulation. -/
def alistUpd {α β : Type} [BEq α] (l : List (α × β)) (k : α) (f : β → β) (dflt : β) :
    List (α × β) :=
  if alistHas l k then l.map (fun p => if p.1 == k then (p.1, f p.2) else p)
  else l ++ [(k, f dflt)]

/-- A duration histogram: `Counter` from observed `ms_played` to frequency. -/
abbrev DurCounter := List (Int × Nat)

def bumpCounter (c : DurCounter) (v : Int) : DurCounter :=
  alistUpd c v (· + 1) 0

/-! ### Pass 1: `collect_records` -/

/-- The record dictionaries appended to `self.all_records`. -/
structure NRecord where
  ts : Nat
  ts_str : String
  ms_played : Int
  raw_track_id : TrackId
  track_id : TrackId
  hour : Nat
deriving DecidableEq

/-- The `stats` counter dictionary. -/
structure RunStats where
  processed : Nat
  skipped : Nat
  duplicates : Nat
  repaired : Nat
  fused : Nat
  canonized : Nat
deriving DecidableEq

/-- The analyzer state populated by pass 1 (`__init__` fields touched by
`collect_records`).  `track_names` holds the first-seen display names stored
in `global_track_stats`; the numeric part of `global_track_stats` is the
derived function `track_stats_of` below. -/
structure CollectState where
  processed_ids : List (String × Int × TrackId)
  canon_track_map : List (TrackId × TrackId)
  track_names : List (TrackId × (String × String))
  all_records : List NRecord
  duration_index : List (TrackId × DurCounter)
  stats : RunStats
deriving DecidableEq

def initStats : RunStats := ⟨0, 0, 0, 0, 0, 0⟩

def initState : CollectState := ⟨[], [], [], [], [], initStats⟩

/-- One iteration of the `for record in records` loop of `collect_records`.
Every `continue` in the source is a branch returning the state unchanged. -/
def collect_one (st : CollectState) (record : RawEvent) : CollectState :=
  match record.ts with
  | none => st
  | some ts_str =>
    if ts_str.isEmpty then st
    else
      match strptimeUTC ts_str with
      | none => st
      | some dt =>
        let track := normalize_text (pyOrStr record.master_metadata_track_name record.episode_name)
        let artist := normalize_text
          (pyOrStr record.master_metadata_album_artist_name record.episode_show_name)
        let ms_played := resolveMsPlayed record.ms_played
        if track.isEmpty || artist.isEmpty then st
        else
          let raw_track_id : TrackId := (strLower track, strLower artist)
          let canon_track := canonicalize_track track
          let canon_track_id : TrackId := (strLower canon_track, strLower artist)
          let st1 :=
            if canon_track_id ≠ raw_track_id then
              { st with stats.canonized := st.stats.canonized + 1 }
            else st
          let st2 := { st1 with canon_track_map := alistSet st1.canon_track_map raw_track_id canon_track_id }
          let record_id : String × Int × TrackId := (ts_str, ms_played, raw_track_id)
          if st2.processed_ids.contains record_id then
            { st2 with stats.duplicates := st2.stats.duplicates + 1 }
          else
            let st3 := { st2 with processed_ids := st2.processed_ids ++ [record_id] }
            let stored := (alistGet st3.track_names canon_track_id).getD ("", "")
            let st4 :=
              if stored.1.isEmpty then
                { st3 with track_names := alistSet st3.track_names canon_track_id (canon_track, artist) }
              else st3
            let nrec : NRecord := ⟨toEpochMs dt, ts_str, ms_played, raw_track_id, canon_track_id, dt.hour⟩
            let st5 := { st4 with all_records := st4.all_records ++ [nrec] }
            if ms_played > 5000 then
              { st5 with duration_index :=
                  alistUpd st5.duration_index canon_track_id (fun c => bumpCounter c ms_played) [] }
            else st5

def collect_records (st : CollectState) (records : List RawEvent) : CollectState :=
  records.foldl collect_one st

/-! ### `finalize_durations`: reference duration and trust per track -/

def listMaxInt : List Int → Int
  | [] => 0
  | x :: xs => xs.foldl max x

def listMaxNat : List Nat → Nat
  | [] => 0
  | x :: xs => xs.foldl max x

/-- `most_common[0][1]`: the highest frequency in the histogram. -/
def maxFreqOf (c : DurCounter) : Nat := listMaxNat (c.map (·.2))

/-- The duration values tying for the highest frequency. -/
def modesOf (c : DurCounter) : List Int :=
  (c.filter (fun p => p.2 == maxFreqOf c)).map (·.1)

/-- `ref_ms = max(modes)`. -/
def refOf (c : DurCounter) : Int := listMaxInt (modesOf c)

def counterTotal (c : DurCounter) : Nat := (c.map (·.2)).sum

/-- `trust = full_listens / total_plays`, where `full_listens` counts
observations `≥ 0.8 * ref_ms`. -/
def trustOf (c : DurCounter) : ℚ :=
  let total := counterTotal c
  let full := ((c.filter (fun p => (p.1 : ℚ) ≥ 4/5 * (refOf c : ℚ))).map (·.2)).sum
  if total > 0 then (full : ℚ) / (total : ℚ) else 0

/-- `global_track_stats[tid]` after `finalize_durations`: `(ref_ms, trust)`.
Tracks absent from `duration_index` keep the defaultdict values `(1, 0.0)`. -/
def track_stats_of (st : CollectState) (tid : TrackId) : Int × ℚ :=
  match alistGet st.duration_index tid with
  | some c => if c.isEmpty then (1, 0) else (refOf c, trustOf c)
  | none => (1, 0)

/-! ### Pass 2: `process_data` (fragment fusion, gap repair, FLE scoring) -/

/-- Stable insertion sort; agrees with Python's stable `list.sort`. -/
def insertSorted {α : Type} (le : α → α → Bool) (x : α) : List α → List α
  | [] => [x]
  | y :: ys => if le x y then x :: y :: ys else y :: insertSorted le x ys

def stableSort {α : Type} (le : α → α → Bool) : List α → List α
  | [] => []
  | x :: xs => insertSorted le x (stableSort le xs)

/-- `self.all_records.sort(key=lambda x: x["ts"])`. -/
def sortRecords (l : List NRecord) : List NRecord :=
  stableSort (fun a b => decide (a.ts ≤ b.ts)) l

/-- One month/year/all-time accumulator: `{"songs": Counter(), "artists": Counter()}`. -/
structure Bucket where
  songs : List (TrackId × ℚ)
  artists : List (String × ℚ)
deriving DecidableEq

def emptyBucket : Bucket := ⟨[], []⟩

def addToBucket (b : Bucket) (tid : TrackId) (fle : ℚ) : Bucket :=
  { songs := alistUpd b.songs tid (· + fle) 0,
    artists := alistUpd b.artists tid.2 (· + fle) 0 }

/-- The analyzer state mutated by the pass-2 loop. -/
structure ProcState where
  monthly_data : List (String × Bucket)
  yearly_data : List (String × Bucket)
  alltime_data : Bucket
  circadian_stats : List (String × List (Nat × ℚ))
  artist_monthly_presence : List (String × List String)
  stats : RunStats
  prev_record : Option NRecord
deriving DecidableEq

def initProc (stats : RunStats) : ProcState :=
  ⟨[], [], emptyBucket, [], [], stats, none⟩

/-- Phase A condition: `prev` exists, shares the canonical track id, and the
gap to it is under 1000 ms. -/
def fuseCheck (prev : Option NRecord) (curr : NRecord) : Bool :=
  match prev with
  | none => false
  | some p => p.track_id == curr.track_id && decide ((curr.ts : Int) - (p.ts : Int) < 1000)

/-- Phase B: the `(effective_ms, repaired?)` outcome of the gap-repair block,
given the reference duration, trust, the reported duration, and the successor
record (if any). -/
def phaseB (ref : Int) (trust : ℚ) (reported : Int) (curr : NRecord)
    (next : Option NRecord) : Int × Bool :=
  match next with
  | none => (reported, false)
  | some nxt =>
    let gap : Int := (nxt.ts : Int) - (curr.ts : Int)
    if (reported : ℚ) < 3/20 * (ref : ℚ) ∧ (gap : ℚ) > 4/5 * (ref : ℚ) ∧
        (gap : ℚ) < 6/5 * (ref : ℚ) then
      if trust > 1/2 then (ref, true) else (reported, false)
    else (reported, false)

/-- `record_fle = min(effective_ms / ref_ms, 2.0) if ref_ms > 0 else 0`. -/
def fleOf (effective ref : Int) : ℚ :=
  if (ref : Int) > 0 then min ((effective : ℚ) / (ref : ℚ)) 2 else 0

/-- One iteration of the pass-2 loop body for `curr`, with `next` the
following record of the sorted list (if any).  `cst` supplies
`global_track_stats` (via `track_stats_of`). -/
def process_step (cst : CollectState) (s : ProcState) (curr : NRecord)
    (next : Option NRecord) : ProcState :=
  let ts := track_stats_of cst curr.track_id
  let ref_ms := ts.1
  let trust := ts.2
  let reported_ms := curr.ms_played
  if fuseCheck s.prev_record curr then
    { s with stats.fused := s.stats.fused + 1 }
  else
    let pb := phaseB ref_ms trust reported_ms curr next
    let effective_ms := pb.1
    let s1 := if pb.2 then { s with stats.repaired := s.stats.repaired + 1 } else s
    if effective_ms < 5000 then s1
    else
      let record_fle := fleOf effective_ms ref_ms
      let month_key := strTake curr.ts_str 7
      let year_key := strTake curr.ts_str 4
      let artist_low := curr.track_id.2
      { s1 with
        monthly_data := alistUpd s1.monthly_data month_key (fun b => addToBucket b curr.track_id record_fle) emptyBucket,
        yearly_data := alistUpd s1.yearly_data year_key (fun b => addToBucket b curr.track_id record_fle) emptyBucket,
        alltime_data := addToBucket s1.alltime_data curr.track_id record_fle,
        circadian_stats := alistUpd s1.circadian_stats artist_low (fun c => alistUpd c curr.hour (· + record_fle) 0) [],
        artist_monthly_presence := alistUpd s1.artist_monthly_presence artist_low
          (fun ms => if ms.contains month_key then ms else ms ++ [month_key]) [],
        stats.processed := s1.stats.processed + 1,
        prev_record := some curr }

def process_loop (cst : CollectState) : ProcState → List NRecord → ProcState
  | s, [] => s
  | s, curr :: rest => process_loop cst (process_step cst s curr rest.head?) rest

/-- `process_data` up to (but not including) `_finalize_intelligence`;
returns the untouched initial state when `all_records` is empty. -/
def process_data (cst : CollectState) : ProcState :=
  if cst.all_records.isEmpty then initProc cst.stats
  else process_loop cst (initProc cst.stats) (sortRecords cst.all_records)

/-! ### Intelligence layer: `_calculate_entropy`, `_calculate_kl_divergence`,
`_finalize_intelligence` -/

/-- `_calculate_entropy(data_counter)`: Shannon entropy (bits) over the
multiset of counter values. -/
noncomputable def calculate_entropy (counts : List ℚ) : ℝ :=
  let total : ℚ := counts.sum
  if total = 0 then 0
  else
    (counts.map (fun count =>
      let p : ℚ := count / total
      if p > 0 then -((p : ℝ) * Real.logb 2 (p : ℝ)) else 0)).sum

/-- `set(p.keys()) | set(q.keys())`, each key once. -/
def unionKeys (p q : List (String × ℚ)) : List String :=
  ((p.map (·.1)) ++ (q.map (·.1))).eraseDups

/-- `_calculate_kl_divergence(p_counts, q_counts)`: each smoothed count
`x + 0.01` is divided by the UNSMOOTHED total of its own distribution. -/
noncomputable def calculate_kl_divergence (p q : List (String × ℚ)) : ℝ :=
  let p_total : ℚ := (p.map (·.2)).sum
  let q_total : ℚ := (q.map (·.2)).sum
  if p_total = 0 ∨ q_total = 0 then 0
  else
    ((unionKeys p q).map (fun k =>
      let pv : ℚ := ((alistGet p k).getD 0 + 1/100) / p_total
      let qv : ℚ := ((alistGet q k).getD 0 + 1/100) / q_total
      (pv : ℝ) * Real.logb 2 ((pv : ℝ) / (qv : ℝ)))).sum

/-- Modelled from the spec's words for comparison with
`calculate_kl_divergence`: "+0.01 per artist-key, both distributions
re-normalized" — the smoothed vectors are divided by their own SMOOTHED
totals, so each sums to 1, before `Σ p·log2(p/q)` is taken. -/
noncomputable def kl_smoothed_renormalized (p q : List (String × ℚ)) : ℝ :=
  let keys := unionKeys p q
  let pSmoothTotal : ℚ := (keys.map (fun k => (alistGet p k).getD 0 + 1/100)).sum
  let qSmoothTotal : ℚ := (keys.map (fun k => (alistGet q k).getD 0 + 1/100)).sum
  (keys.map (fun k =>
    let pv : ℚ := ((alistGet p k).getD 0 + 1/100) / pSmoothTotal
    let qv : ℚ := ((alistGet q k).getD 0 + 1/100) / qSmoothTotal
    (pv : ℝ) * Real.logb 2 ((pv : ℝ) / (qv : ℝ)))).sum

/-- An era span, as appended to `self.eras`. `stop` is the source's `"end"`. -/
structure Era where
  start : String
  stop : String
  top_artist : String
deriving DecidableEq

/-- `most_common(1)[0][0]` of a Counter: the first-inserted key of maximal
count (Counter's sort is stable, descending by count). -/
def topKey (l : List (String × ℚ)) : String :=
  match l with
  | [] => ""
  | x :: xs => (xs.foldl (fun best p => if p.2 > best.2 then p else best) x).1

def topArtistOf (dist : List (String × ℚ)) : String :=
  if dist.isEmpty then "Unknown" else topKey dist

/-- `Counter.update`: add counts of `b` into `a` in `b`'s iteration order. -/
def counterMerge (a b : List (String × ℚ)) : List (String × ℚ) :=
  b.foldl (fun acc p => alistUpd acc p.1 (· + p.2) 0) a

def monthArtists (monthly : List (String × Bucket)) (m : String) : List (String × ℚ) :=
  ((alistGet monthly m).getD emptyBucket).artists

/-- The era-detection loop over the remaining sorted months, carrying the
previous month, the open era's start month and aggregate distribution. -/
noncomputable def eraLoop (monthly : List (String × Bucket)) :
    String → String → List (String × ℚ) → List String → List Era
  | prevMonth, eraStart, eraDist, [] => [⟨eraStart, prevMonth, topArtistOf eraDist⟩]
  | prevMonth, eraStart, eraDist, m :: rest =>
    let mDist := monthArtists monthly m
    let shift := calculate_kl_divergence mDist eraDist
    if shift > 13/10 then
      ⟨eraStart, prevMonth, topArtistOf eraDist⟩ :: eraLoop monthly m m (counterMerge [] mDist) rest
    else
      eraLoop monthly m eraStart (counterMerge eraDist mDist) rest

/-- The era-detection part of `_finalize_intelligence`.  Returns `none`
exactly when the early `return` fires before `self.eras` is ever assigned
(no months aggregated), leaving the attribute unset. -/
noncomputable def finalizeEras (monthly : List (String × Bucket)) : Option (List Era) :=
  let sortedMonths := stableSort (fun a b => decide (a ≤ b)) (monthly.map (·.1))
  match sortedMonths with
  | [] => none
  | m0 :: rest => some (eraLoop monthly m0 m0 (counterMerge [] (monthArtists monthly m0)) rest)

/-- The whole-run analyzer state after `collect_records`,
`finalize_durations`, and `process_data` (including
`_finalize_intelligence`).  `eras = none` models the `self.eras` attribute
never having been assigned. -/
structure AnalyzerState where
  collect : CollectState
  proc : ProcState
  monthly_entropy : List (String × ℝ)
  eras : Option (List Era)

noncomputable def runAnalyzer (records : List RawEvent) : AnalyzerState :=
  let cst := collect_records initState records
  let ps := process_data cst
  if cst.all_records.isEmpty then ⟨cst, ps, [], none⟩
  else
    let ent := ps.monthly_data.map (fun p => (p.1, calculate_entropy (p.2.songs.map (·.2))))
    ⟨cst, ps, ent, finalizeEras ps.monthly_data⟩

/-! ### `get_report` -/

/-- `_find_artist_display`: first canonical id of that artist in
`global_track_stats` supplies the display name. -/
def find_artist_display (cst : CollectState) (lower_artist : String) : String :=
  match cst.track_names.find? (fun p => p.1.2 == lower_artist) with
  | some p => p.2.2
  | none => lower_artist

structure SongEntry where
  name : String
  artist : String
  score : ℚ
deriving DecidableEq

structure ArtistEntry where
  name : String
  score : ℚ
deriving DecidableEq

structure SectionRanking where
  artists : List ArtistEntry
  songs : List SongEntry
deriving DecidableEq

/-- `_calculate_fle_rankings` (the two-decimal display rounding of scores is
presentation only and is not modelled). -/
def calculate_fle_rankings (cst : CollectState) (context_data : Bucket) (top_n : Nat) :
    SectionRanking :=
  let artists := context_data.artists.map (fun p =>
    ArtistEntry.mk (find_artist_display cst p.1) p.2)
  let songs := context_data.songs.map (fun p =>
    let s := (alistGet cst.track_names p.1).getD ("", "")
    SongEntry.mk s.1 s.2 p.2)
  { artists := (stableSort (fun a b => decide (a.score ≥ b.score)) artists).take top_n,
    songs := (stableSort (fun a b => decide (a.score ≥ b.score)) songs).take top_n }

structure AlltimeArtistEntry where
  name : String
  score : ℚ
  loyalty_score : ℚ
  binge_index : ℚ
deriving DecidableEq

structure Report where
  stats : RunStats
  eras : List Era
  entropy : List (String × ℝ)
  monthly : List (String × SectionRanking × ℝ)
  yearly : List (String × SectionRanking)
  alltime_artists : List AlltimeArtistEntry
  alltime_songs : List SongEntry

def loyaltyOf (ps : ProcState) (low_name : String) : ℚ :=
  let total_months := ps.monthly_data.length
  let presence := ((alistGet ps.artist_monthly_presence low_name).getD []).length
  if total_months > 0 then (presence : ℚ) / (total_months : ℚ) else 0

def bingeOf (ps : ProcState) (low_name : String) (score : ℚ) : ℚ :=
  let peak := ps.monthly_data.foldl
    (fun acc p => max acc ((alistGet p.2.artists low_name).getD 0)) 0
  if score > 0 then peak / score else 0

/-- `get_report`: accessing `self.eras` when `_finalize_intelligence` never
assigned it raises `AttributeError`, modelled as the `Except.error` branch. -/
noncomputable def get_report (st : AnalyzerState) (top_n : Nat) : Except String Report :=
  match st.eras with
  | none => Except.error "AttributeError: SpotifyAnalyzer object has no attribute eras"
  | some eras =>
    let alltime := calculate_fle_rankings st.collect st.proc.alltime_data top_n
    Except.ok
      { stats := st.proc.stats
        eras := eras
        entropy := st.monthly_entropy
        monthly := (stableSort (fun a b => decide (a.1 ≤ b.1)) st.proc.monthly_data).map
          (fun p => (p.1, calculate_fle_rankings st.collect p.2 top_n,
            ((alistGet st.monthly_entropy p.1).getD 0)))
        yearly := (stableSort (fun a b => decide (a.1 ≤ b.1)) st.proc.yearly_data).map
          (fun p => (p.1, calculate_fle_rankings st.collect p.2 top_n))
        alltime_artists := alltime.artists.map (fun a =>
          AlltimeArtistEntry.mk a.name a.score (loyaltyOf st.proc (strLower a.name))
            (bingeOf st.proc (strLower a.name) a.score))
        alltime_songs := alltime.songs }

/-! ### Semantic view of the duration histogram -/

/-- The frequency of duration `v` recorded for track `tid` in a duration
index. -/
def indexCount (di : List (TrackId × DurCounter)) (tid : TrackId) (v : Int) : Nat :=
  match alistGet di tid with
  | some c => (alistGet c v).getD 0
  | none => 0

/-- The frequency of duration `v` in the histogram of track `tid`. -/
def durCount (st : CollectState) (tid : TrackId) (v : Int) : Nat :=
  indexCount st.duration_index tid v

/-- How many accepted records of track `tid` report duration `v`, counting
only observations strictly above 5000 ms (the histogram admission test). -/
def histCount (recs : List NRecord) (tid : TrackId) (v : Int) : Nat :=
  (recs.filter (fun r => r.track_id == tid && r.ms_played == v &&
    decide (r.ms_played > 5000))).length

/-! ### Concrete corpora used to settle the claims -/

/-- A well-formed music event. -/
def mkEvent (ts track artist : String) (ms : Int) : RawEvent :=
  ⟨some ts, some track, none, some artist, none, some ms⟩

/-- The gap-repair scenario of the spec (and of
`test_negative_glitch_correction`): 10 full 180000 ms listens of Song A,
then a 10000 ms glitch report of Song A at 10:03:00 followed 3m05s later by
a Song B event. -/
def corpusGapRepair : List RawEvent :=
  [ mkEvent "2023-01-01T00:00:00Z" "Song A" "Artist X" 180000,
    mkEvent "2023-01-01T00:05:00Z" "Song A" "Artist X" 180000,
    mkEvent "2023-01-01T00:10:00Z" "Song A" "Artist X" 180000,
    mkEvent "2023-01-01T00:15:00Z" "Song A" "Artist X" 180000,
    mkEvent "2023-01-01T00:20:00Z" "Song A" "Artist X" 180000,
    mkEvent "2023-01-01T00:25:00Z" "Song A" "Artist X" 180000,
    mkEvent "2023-01-01T00:30:00Z" "Song A" "Artist X" 180000,
    mkEvent "2023-01-01T00:35:00Z" "Song A" "Artist X" 180000,
    mkEvent "2023-01-01T00:40:00Z" "Song A" "Artist X" 180000,
    mkEvent "2023-01-01T00:45:00Z" "Song A" "Artist X" 180000,
    mkEvent "2023-01-01T10:03:00Z" "Song A" "Artist X" 10000,
    mkEvent "2023-01-01T10:06:05Z" "Song B" "Artist Y" 180000 ]

/-- The glitch record of `corpusGapRepair` as it appears in `all_records`. -/
def nGapGlitch : NRecord :=
  ⟨toEpochMs ⟨2023, 1, 1, 10, 3, 0⟩, "2023-01-01T10:03:00Z", 10000,
    ("song a", "artist x"), ("song a", "artist x"), 10⟩

/-- The Song B record of `corpusGapRepair` as it appears in `all_records`. -/
def nGapB : NRecord :=
  ⟨toEpochMs ⟨2023, 1, 1, 10, 6, 5⟩, "2023-01-01T10:06:05Z", 180000,
    ("song b", "artist y"), ("song b", "artist y"), 10⟩

/-- Like the gap-repair scenario, but the glitch listen reports a `null`
duration and happens in a different month (2023-02), so that any score it
produces is isolated in the February bucket. -/
def corpusNullGlitch : List RawEvent :=
  [ mkEvent "2023-01-01T00:00:00Z" "Song A" "Artist X" 180000,
    mkEvent "2023-01-01T00:05:00Z" "Song A" "Artist X" 180000,
    mkEvent "2023-01-01T00:10:00Z" "Song A" "Artist X" 180000,
    mkEvent "2023-01-01T00:15:00Z" "Song A" "Artist X" 180000,
    mkEvent "2023-01-01T00:20:00Z" "Song A" "Artist X" 180000,
    mkEvent "2023-01-01T00:25:00Z" "Song A" "Artist X" 180000,
    mkEvent "2023-01-01T00:30:00Z" "Song A" "Artist X" 180000,
    mkEvent "2023-01-01T00:35:00Z" "Song A" "Artist X" 180000,
    mkEvent "2023-01-01T00:40:00Z" "Song A" "Artist X" 180000,
    mkEvent "2023-01-01T00:45:00Z" "Song A" "Artist X" 180000,
    ⟨some "2023-02-01T10:03:00Z", some "Song A", none, some "Artist X", none, none⟩,
    mkEvent "2023-02-01T10:06:05Z" "Song B" "Artist Y" 180000 ]

/-- One observation of exactly 5000 ms (the histogram admission boundary). -/
def corpusBoundary : List RawEvent :=
  [mkEvent "2023-01-01T10:00:00Z" "Song E" "Artist E" 5000]

/-- Two different songs by the same artist, one full listen each: the song
distribution of 2023-01 is uniform over two entries while the artist
distribution is concentrated on one. -/
def corpusEntropySongs : List RawEvent :=
  [ mkEvent "2023-01-10T12:00:00Z" "S One" "A Same" 180000,
    mkEvent "2023-01-11T12:00:00Z" "S Two" "A Same" 180000 ]

/-- A scored listen, then a listen that is dropped (`effective_ms < 5000`),
then a same-track listen with the same timestamp as the dropped one.  If the
dropped record advanced the previous-record pointer, the third record would
be fused (gap 0 ms); against the actually retained pointer (the first
record) the gap is 10 minutes. -/
def corpusDropped : List RawEvent :=
  [ mkEvent "2023-01-01T10:00:00Z" "Song T" "Artist Z" 200000,
    mkEvent "2023-01-01T10:10:00Z" "Song T" "Artist Z" 2000,
    mkEvent "2023-01-01T10:10:00Z" "Song T" "Artist Z" 200000 ]

def nDrop1 : NRecord :=
  ⟨toEpochMs ⟨2023, 1, 1, 10, 0, 0⟩, "2023-01-01T10:00:00Z", 200000,
    ("song t", "artist z"), ("song t", "artist z"), 10⟩

def nDrop2 : NRecord :=
  ⟨toEpochMs ⟨2023, 1, 1, 10, 10, 0⟩, "2023-01-01T10:10:00Z", 2000,
    ("song t", "artist z"), ("song t", "artist z"), 10⟩

def nDrop3 : NRecord :=
  ⟨toEpochMs ⟨2023, 1, 1, 10, 10, 0⟩, "2023-01-01T10:10:00Z", 200000,
    ("song t", "artist z"), ("song t", "artist z"), 10⟩

/-- Two raw events with identical timestamp and duration whose raw track
names differ but canonicalize to the same track. -/
def eventPlainC : RawEvent := mkEvent "2023-03-01T10:00:00Z" "Song C" "Artist W" 60000

def eventLiveC : RawEvent := mkEvent "2023-03-01T10:00:00Z" "Song C - Live" "Artist W" 60000

/-- A record whose track name resolves to the empty string
(`test_empty_track_name_skipped`): it is rejected by the normalizer. -/
def eventNoTrack : RawEvent :=
  ⟨some "2026-01-01T12:00:00Z", some "", none, some "Artist A", none, some 1000⟩

/-- A record that is collected but never scores (`ms_played = 0`, as in
`test_fle_division_by_zero`): pass 2 aggregates no month for it. -/
def eventZeroMs : RawEvent := mkEvent "2026-01-01T12:00:00Z" "Silent Track" "Artist B" 0

/-- A valid event used to exercise replay/deduplication. -/
def eventReplay : RawEvent := mkEvent "2023-01-01T12:00:00Z" "Song" "Artist" 200000

/-- Pass-1 state over `corpusDropped`. -/
def cstDropped : CollectState := collect_records initState corpusDropped

/-- Pass-2 state over `corpusDropped` after processing the first (scored)
record, whose successor is the to-be-dropped second record. -/
def sDropFirst : ProcState :=
  process_step cstDropped (initProc cstDropped.stats) nDrop1 (some nDrop2)

/-- Pass-1 state over `corpusGapRepair`. -/
def cstGap : CollectState := collect_records initState corpusGapRepair

/-- Pass-1 state over `corpusNullGlitch`. -/
def cstNull : CollectState := collect_records initState corpusNullGlitch

/-- Everything in the pass-2 state except the `stats` counters: the
aggregation buckets, auxiliary indexes and the previous-record pointer. -/
def coreOf (s : ProcState) :
    List (String × Bucket) × List (String × Bucket) × Bucket ×
      List (String × List (Nat × ℚ)) × List (String × List String) × Option NRecord :=
  (s.monthly_data, s.yearly_data, s.alltime_data, s.circadian_stats,
    s.artist_monthly_presence, s.prev_record)

/-- `p_counts` of the KL counterexample: one artist with weight 1. -/
def klP : List (String × ℚ) := [("a", 1)]

/-- `q_counts` of the KL counterexample: the same artist with weight 2. -/
def klQ : List (String × ℚ) := [("a", 2)]

/-! ### Helper lemmas: folded maxima -/

theorem foldl_max_mem {μ : Type} [LinearOrder μ] (xs : List μ) (a : μ) :
    xs.foldl max a = a ∨ xs.foldl max a ∈ xs := by
  induction xs generalizing a with
  | nil => exact Or.inl rfl
  | cons x xs ih =>
    rcases ih (max a x) with h | h
    · rcases max_choice a x with hm | hm
      · exact Or.inl (by simpa [hm] using h)
      · refine Or.inr ?_
        rw [List.foldl_cons, hm]
        rw [hm] at h
        rw [h]
        exact List.mem_cons_self x xs
    · exact Or.inr (List.mem_cons_of_mem _ h)

theorem le_foldl_max {μ : Type} [LinearOrder μ] (xs : List μ) (a : μ) :
    a ≤ xs.foldl max a ∧ ∀ x ∈ xs, x ≤ xs.foldl max a := by
  induction xs generalizing a with
  | nil => exact ⟨le_refl a, by simp⟩
  | cons y ys ih =>
    obtain ⟨h1, h2⟩ := ih (max a y)
    refine ⟨le_trans (le_max_left a y) h1, ?_⟩
    intro x hx
    rcases List.mem_cons.mp hx with rfl | hx
    · exact le_trans (le_max_right a x) h1
    · exact h2 x hx

theorem listMaxNat_mem (l : List Nat) (h : l ≠ []) : listMaxNat l ∈ l := by
  match l with
  | x :: xs =>
    rcases foldl_max_mem xs x with h1 | h1
    · rw [listMaxNat, h1]; exact List.mem_cons_self x xs
    · rw [listMaxNat]; exact List.mem_cons_of_mem _ h1

theorem le_listMaxNat (l : List Nat) : ∀ x ∈ l, x ≤ listMaxNat l := by
  intro x hx
  match l, hx with
  | y :: ys, hx =>
    rcases List.mem_cons.mp hx with rfl | hx
    · exact (le_foldl_max ys x).1
    · exact (le_foldl_max ys y).2 x hx

theorem listMaxInt_mem (l : List Int) (h : l ≠ []) : listMaxInt l ∈ l := by
  match l with
  | x :: xs =>
    rcases foldl_max_mem xs x with h1 | h1
    · rw [listMaxInt, h1]; exact List.mem_cons_self x xs
    · rw [listMaxInt]; exact List.mem_cons_of_mem _ h1

theorem le_listMaxInt (l : List Int) : ∀ x ∈ l, x ≤ listMaxInt l := by
  intro x hx
  match l, hx with
  | y :: ys, hx =>
    rcases List.mem_cons.mp hx with rfl | hx
    · exact (le_foldl_max ys x).1
    · exact (le_foldl_max ys y).2 x hx

/-! ### Helper lemmas: association lists -/

theorem find_eq_none_of_has_false {α β : Type} [BEq α] (l : List (α × β)) (k : α)
    (h : alistHas l k = false) : l.find? (fun p => p.1 == k) = none := by
  rw [List.find?_eq_none]
  intro x hx hpx
  rw [alistHas] at h
  have : l.any (fun p => p.1 == k) = true := List.any_eq_true.mpr ⟨x, hx, hpx⟩
  rw [h] at this
  exact Bool.noConfusion this

theorem find_map_upd_self {α β : Type} [BEq α] (l : List (α × β)) (k : α) (f : β → β) :
    (l.map (fun p => if p.1 == k then (p.1, f p.2) else p)).find? (fun p => p.1 == k) =
      (l.find? (fun p => p.1 == k)).map (fun p => (p.1, f p.2)) := by
  induction l with
  | nil => rfl
  | cons p l ih =>
    cases hb : (p.1 == k) with
    | true => simp [List.find?_cons, hb]
    | false => simp [List.find?_cons, hb, ih]

theorem find_map_upd_ne {α β : Type} [BEq α] [LawfulBEq α] (l : List (α × β)) (k k' : α)
    (f : β → β) (h : ¬ k' = k) :
    (l.map (fun p => if p.1 == k then (p.1, f p.2) else p)).find? (fun p => p.1 == k') =
      l.find? (fun p => p.1 == k') := by
  induction l with
  | nil => rfl
  | cons p l ih =>
    cases hb : (p.1 == k) with
    | true =>
      have hp1 : p.1 = k := eq_of_beq hb
      have hb' : (p.1 == k') = false := by
        rw [hp1]
        exact beq_false_of_ne (fun hkk => h hkk.symm)
      simp [List.find?_cons, hb, hb', ih]
    | false =>
      cases hb' : (p.1 == k') with
      | true => simp [List.find?_cons, hb, hb']
      | false => simp [List.find?_cons, hb, hb', ih]

theorem alistGet_upd_self {α β : Type} [BEq α] [LawfulBEq α] (l : List (α × β)) (k : α)
    (f : β → β) (d : β) :
    alistGet (alistUpd l k f d) k = some (f ((alistGet l k).getD d)) := by
  rw [alistUpd]
  rcases Bool.eq_false_or_eq_true (alistHas l k) with hh | hh
  · rw [if_pos hh]
    rw [alistGet, find_map_upd_self]
    rw [alistGet]
    have hsome : (l.find? (fun p => p.1 == k)).isSome = true := by
      rw [List.find?_isSome]
      rw [alistHas, List.any_eq_true] at hh
      exact hh
    cases hf : l.find? (fun p => p.1 == k) with
    | some p => simp
    | none => rw [hf] at hsome; exact Bool.noConfusion hsome
  · rw [if_neg (by simp [hh])]
    rw [alistGet, List.find?_append, find_eq_none_of_has_false l k hh]
    rw [alistGet, find_eq_none_of_has_false l k hh]
    simp [List.find?_cons]

theorem alistGet_upd_ne {α β : Type} [BEq α] [LawfulBEq α] (l : List (α × β)) (k k' : α)
    (f : β → β) (d : β) (h : ¬ k' = k) :
    alistGet (alistUpd l k f d) k' = alistGet l k' := by
  rw [alistUpd]
  rcases Bool.eq_false_or_eq_true (alistHas l k) with hh | hh
  · rw [if_pos hh]
    rw [alistGet, find_map_upd_ne l k k' f h, alistGet]
  · rw [if_neg (by simp [hh])]
    rw [alistGet, List.find?_append, alistGet]
    have hnone : List.find? (fun p => p.1 == k') [(k, f d)] = none := by
      simp [List.find?_cons, beq_false_of_ne (fun hkk => h hkk.symm)]
    rw [hnone]
    cases l.find? (fun p => p.1 == k') <;> rfl

theorem mem_alistUpd {α β : Type} [BEq α] (l : List (α × β)) (k : α) (f : β → β) (d : β)
    (x : α × β) (hx : x ∈ alistUpd l k f d) :
    x ∈ l ∨ (∃ y ∈ l, x = (y.1, f y.2)) ∨ x = (k, f d) := by
  rw [alistUpd] at hx
  by_cases hh : alistHas l k = true
  · rw [if_pos hh] at hx
    rcases List.mem_map.mp hx with ⟨y, hy, hxy⟩
    by_cases hb : (y.1 == k) = true
    · rw [if_pos hb] at hxy
      exact Or.inr (Or.inl ⟨y, hy, hxy.symm⟩)
    · rw [if_neg hb] at hxy
      exact Or.inl (hxy ▸ hy)
  · rw [if_neg hh] at hx
    rcases List.mem_append.mp hx with hx | hx
    · exact Or.inl hx
    · rcases List.mem_singleton.mp hx with rfl
      exact Or.inr (Or.inr rfl)

/-! ### Helper lemmas: histogram bookkeeping -/

theorem indexCount_upd_bump (di : List (TrackId × DurCounter)) (ck tid : TrackId) (ms v : Int) :
    indexCount (alistUpd di ck (fun c => bumpCounter c ms) []) tid v =
      indexCount di tid v + (if ck = tid ∧ ms = v then 1 else 0) := by
  by_cases htid : ck = tid
  · subst htid
    by_cases hv : ms = v
    · subst hv
      rw [if_pos ⟨rfl, rfl⟩]
      simp only [indexCount, alistGet_upd_self, bumpCounter, Option.getD_some]
      cases hg : alistGet di ck with
      | some c => simp
      | none => simp [alistGet]
    · rw [if_neg (fun hc => hv hc.2)]
      simp only [indexCount, alistGet_upd_self, bumpCounter, Option.getD_some]
      rw [alistGet_upd_ne _ _ _ _ _ (fun hc => hv hc.symm)]
      cases hg : alistGet di ck with
      | some c => simp
      | none => simp [alistGet]
  · rw [if_neg (fun hc => htid hc.1)]
    rw [indexCount, alistGet_upd_ne _ _ _ _ _ (fun hc => htid hc.symm), indexCount]
    simp

theorem histCount_append (recs : List NRecord) (nr : NRecord) (tid : TrackId) (v : Int) :
    histCount (recs ++ [nr]) tid v =
      histCount recs tid v +
        (if nr.track_id = tid ∧ nr.ms_played = v ∧ nr.ms_played > 5000 then 1 else 0) := by
  rw [histCount, List.filter_append, List.length_append, histCount]
  congr 1
  have hb : ((nr.track_id == tid && nr.ms_played == v && decide (nr.ms_played > 5000)) = true) ↔
      (nr.track_id = tid ∧ nr.ms_played = v ∧ nr.ms_played > 5000) := by
    simp [and_assoc]
  by_cases h : nr.track_id = tid ∧ nr.ms_played = v ∧ nr.ms_played > 5000
  · rw [if_pos h]
    rw [List.filter_cons, if_pos (hb.mpr h)]
    rfl
  · rw [if_neg h]
    have hfalse : (nr.track_id == tid && nr.ms_played == v && decide (nr.ms_played > 5000)) = false := by
      rcases Bool.eq_false_or_eq_true
          (nr.track_id == tid && nr.ms_played == v && decide (nr.ms_played > 5000)) with hf | hf
      · exact absurd (hb.mp hf) h
      · exact hf
    rw [List.filter_cons, if_neg (by simp [hfalse])]
    rfl

/-- Pass-1 invariant: the duration index counts exactly the accepted
observations strictly above 5000 ms, per track and per duration value. -/
theorem collect_one_dur_hist (st : CollectState) (r : RawEvent)
    (inv : ∀ tid v, durCount st tid v = histCount st.all_records tid v) :
    ∀ tid v, durCount (collect_one st r) tid v = histCount (collect_one st r).all_records tid v := by
  have inv' : ∀ t w, indexCount st.duration_index t w = histCount st.all_records t w :=
    fun t w => inv t w
  intro tid v
  show indexCount (collect_one st r).duration_index tid v = _
  simp only [collect_one]
  repeat' split
  all_goals try dsimp only
  all_goals try exact inv' tid v
  all_goals
    first
      | (rw [indexCount_upd_bump, histCount_append, inv' tid v]
         congr 1
         apply if_congr _ rfl rfl
         constructor
         · intro hc
           exact ⟨hc.1, hc.2, by assumption⟩
         · intro hc
           exact ⟨hc.1, hc.2.1⟩)
      | (rw [histCount_append, inv' tid v,
          if_neg (fun hc2 => absurd hc2.2.2 (by assumption)), Nat.add_zero])

theorem collect_records_dur_hist (records : List RawEvent) :
    ∀ tid v, durCount (collect_records initState records) tid v =
      histCount (collect_records initState records).all_records tid v := by
  rw [collect_records]
  have base : ∀ tid v, durCount initState tid v = histCount initState.all_records tid v := by
    intro tid v; rfl
  revert base
  generalize initState = st
  intro base
  induction records generalizing st with
  | nil => exact base
  | cons r rs ih => exact ih (collect_one st r) (collect_one_dur_hist st r base)

theorem mem_bumpCounter (c : DurCounter) (ms : Int) (q : Int × Nat)
    (hq : q ∈ bumpCounter c ms) :
    q ∈ c ∨ (∃ z ∈ c, q = (z.1, z.2 + 1)) ∨ q = (ms, 1) := by
  rw [bumpCounter] at hq
  rcases mem_alistUpd _ _ _ _ _ hq with h | ⟨z, hz, rfl⟩ | rfl
  · exact Or.inl h
  · exact Or.inr (Or.inl ⟨z, hz, rfl⟩)
  · exact Or.inr (Or.inr rfl)

/-- Pass-1 invariant: every histogram entry has a duration strictly above
5000 ms and a positive frequency. -/
theorem collect_one_durWF (st : CollectState) (r : RawEvent)
    (inv : ∀ p ∈ st.duration_index, ∀ q ∈ p.2, q.1 > 5000 ∧ 1 ≤ q.2) :
    ∀ p ∈ (collect_one st r).duration_index, ∀ q ∈ p.2, q.1 > 5000 ∧ 1 ≤ q.2 := by
  intro p hp
  simp only [collect_one] at hp
  repeat' split at hp
  all_goals try dsimp only at hp
  all_goals try exact inv p hp
  all_goals (
    rcases mem_alistUpd _ _ _ _ _ hp with hmem | ⟨y, hy, rfl⟩ | rfl
    · exact inv p hmem
    · intro q hq
      try dsimp only at hq
      rcases mem_bumpCounter _ _ _ hq with hmq | ⟨z, hz, rfl⟩ | rfl
      · exact inv y hy q hmq
      · exact ⟨(inv y hy z hz).1, Nat.le_succ_of_le (inv y hy z hz).2⟩
      · exact ⟨by assumption, Nat.le_refl 1⟩
    · intro q hq
      try dsimp only at hq
      rcases mem_bumpCounter _ _ _ hq with hmq | ⟨z, hz, rfl⟩ | rfl
      · exact absurd hmq (List.not_mem_nil q)
      · exact absurd hz (List.not_mem_nil z)
      · exact ⟨by assumption, Nat.le_refl 1⟩)

theorem collect_records_durWF (records : List RawEvent) :
    ∀ p ∈ (collect_records initState records).duration_index, ∀ q ∈ p.2,
      q.1 > 5000 ∧ 1 ≤ q.2 := by
  rw [collect_records]
  have base : ∀ p ∈ initState.duration_index, ∀ q ∈ p.2, q.1 > 5000 ∧ 1 ≤ q.2 := by
    intro p hp; exact absurd hp (List.not_mem_nil p)
  revert base
  generalize initState = st
  intro base
  induction records generalizing st with
  | nil => exact base
  | cons r rs ih => exact ih (collect_one st r) (collect_one_durWF st r base)

/-! ### Helper lemmas: the reference duration is a largest tied mode -/

theorem refOf_mem (c : DurCounter) (h : c ≠ []) :
    ∃ p ∈ c, p.1 = refOf c ∧ p.2 = maxFreqOf c := by
  have hfreqs : c.map (·.2) ≠ [] := by
    intro hemp
    exact h (List.map_eq_nil_iff.mp hemp)
  rcases List.mem_map.mp (listMaxNat_mem _ hfreqs) with ⟨p, hp, hpf⟩
  have hfilter : p ∈ c.filter (fun q => q.2 == maxFreqOf c) :=
    List.mem_filter.mpr ⟨hp, by simp [maxFreqOf, hpf]⟩
  have hmodes : modesOf c ≠ [] := by
    have hpm : p.1 ∈ modesOf c := List.mem_map.mpr ⟨p, hfilter, rfl⟩
    intro hemp
    rw [hemp] at hpm
    exact List.not_mem_nil _ hpm
  rcases List.mem_map.mp (listMaxInt_mem _ hmodes) with ⟨p2, hp2, hp2max⟩
  have hsplit := List.mem_filter.mp hp2
  exact ⟨p2, hsplit.1, hp2max, by simpa using hsplit.2⟩

theorem freq_le_maxFreqOf (c : DurCounter) : ∀ p ∈ c, p.2 ≤ maxFreqOf c := by
  intro p hp
  rw [maxFreqOf]
  exact le_listMaxNat _ _ (List.mem_map.mpr ⟨p, hp, rfl⟩)

theorem mode_le_refOf (c : DurCounter) :
    ∀ p ∈ c, p.2 = maxFreqOf c → p.1 ≤ refOf c := by
  intro p hp hf
  rw [refOf]
  exact le_listMaxInt _ _
    (List.mem_map.mpr ⟨p, List.mem_filter.mpr ⟨hp, by simp [hf]⟩, rfl⟩)

theorem refOf_gt_5000 (c : DurCounter) (h : c ≠ []) (hk : ∀ q ∈ c, q.1 > 5000) :
    refOf c > 5000 := by
  rcases refOf_mem c h with ⟨p, hp, hp1, _⟩
  exact hp1 ▸ hk p hp

theorem alistGet_mem {α β : Type} [BEq α] (l : List (α × β)) (k : α) (c : β)
    (hg : alistGet l k = some c) : ∃ p ∈ l, p.2 = c := by
  rw [alistGet] at hg
  cases hf : l.find? (fun p => p.1 == k) with
  | some p =>
    rw [hf] at hg
    exact ⟨p, List.mem_of_find?_eq_some hf, by injection hg⟩
  | none => rw [hf] at hg; exact Option.noConfusion hg

/-- The `referenceDurationMs ≥ 1` invariant (in fact `> 5000` whenever a
histogram exists, and exactly the default `1` otherwise). -/
theorem track_stats_ref_ge_one (st : CollectState)
    (hwf : ∀ p ∈ st.duration_index, ∀ q ∈ p.2, q.1 > 5000 ∧ 1 ≤ q.2) (tid : TrackId) :
    1 ≤ (track_stats_of st tid).1 := by
  rw [track_stats_of]
  cases hg : alistGet st.duration_index tid with
  | none => exact Int.le_refl 1
  | some c =>
    dsimp only
    rcases Bool.eq_false_or_eq_true c.isEmpty with hc | hc
    · rw [if_pos hc]
    · rw [if_neg (by simp [hc])]
      have hne : c ≠ [] := by
        intro hnil
        rw [hnil] at hc
        exact Bool.noConfusion hc
      rcases alistGet_mem _ _ _ hg with ⟨p, hp, rfl⟩
      have := refOf_gt_5000 p.2 hne (fun q hq => (hwf p hp q hq).1)
      omega

theorem ref_ge_one_pipeline (records : List RawEvent) (tid : TrackId) :
    1 ≤ (track_stats_of (collect_records initState records) tid).1 :=
  track_stats_ref_ge_one _ (collect_records_durWF records) tid

/-! ### Helper lemmas: the skipped counter and stats-independence of scores -/

theorem collect_one_skipped (st : CollectState) (r : RawEvent) :
    (collect_one st r).stats.skipped = st.stats.skipped := by
  simp only [collect_one]
  repeat' split
  all_goals rfl

theorem collect_records_skipped (st : CollectState) (records : List RawEvent) :
    (collect_records st records).stats.skipped = st.stats.skipped := by
  rw [collect_records]
  induction records generalizing st with
  | nil => rfl
  | cons r rs ih => rw [List.foldl_cons, ih, collect_one_skipped]

theorem track_stats_of_congr (cst cst' : CollectState) (tid : TrackId)
    (hdi : cst.duration_index = cst'.duration_index) :
    track_stats_of cst tid = track_stats_of cst' tid := by
  rw [track_stats_of, track_stats_of, hdi]

/-- The pass-2 step acts identically on the non-stats part of the state:
its branches and bucket updates never consult the counters. -/
theorem process_step_core (cst cst' : CollectState) (s s' : ProcState) (curr : NRecord)
    (next : Option NRecord) (hdi : cst.duration_index = cst'.duration_index)
    (h : coreOf s = coreOf s') :
    coreOf (process_step cst s curr next) = coreOf (process_step cst' s' curr next) := by
  simp only [coreOf, Prod.mk.injEq] at h
  obtain ⟨hm, hy, ha, hc, hp, hr⟩ := h
  have hts := track_stats_of_congr cst cst' curr.track_id hdi
  simp only [process_step, coreOf, hts, hm, hy, ha, hc, hp, hr, Prod.mk.injEq]
  repeat' split
  all_goals simp_all

theorem process_loop_core (recs : List NRecord) (cst cst' : CollectState) (s s' : ProcState)
    (hdi : cst.duration_index = cst'.duration_index) (h : coreOf s = coreOf s') :
    coreOf (process_loop cst s recs) = coreOf (process_loop cst' s' recs) := by
  induction recs generalizing s s' with
  | nil => exact h
  | cons curr rest ih =>
    exact ih _ _ (process_step_core cst cst' s s' curr rest.head? hdi h)

/-- The aggregation outcome of pass 2 depends only on the accepted records
and the duration index, never on the initial counter values. -/
theorem process_data_core (c c' : CollectState)
    (hrec : c.all_records = c'.all_records) (hdi : c.duration_index = c'.duration_index) :
    coreOf (process_data c) = coreOf (process_data c') := by
  rcases Bool.eq_false_or_eq_true c'.all_records.isEmpty with he | he
  · rw [process_data, process_data, hrec]
    rw [if_pos he, if_pos he]
    rfl
  · rw [process_data, process_data, hrec]
    rw [if_neg (by simp [he]), if_neg (by simp [he])]
    exact process_loop_core _ c c' _ _ hdi rfl

/-! ### Helper lemmas: entropy, gap repair, FLE bounds -/

theorem calculate_entropy_eq (counts : List ℚ) (hnn : ∀ c ∈ counts, 0 ≤ c) :
    calculate_entropy counts =
      -((counts.map (fun count => ((count / counts.sum : ℚ) : ℝ) *
          Real.logb 2 ((count / counts.sum : ℚ) : ℝ))).sum) := by
  simp only [calculate_entropy]
  by_cases htot : counts.sum = 0
  · rw [if_pos htot]
    have hz : ∀ x ∈ counts.map (fun count => ((count / counts.sum : ℚ) : ℝ) *
        Real.logb 2 ((count / counts.sum : ℚ) : ℝ)), x = 0 := by
      intro x hx
      rcases List.mem_map.mp hx with ⟨c, _, rfl⟩
      rw [htot, div_zero]
      push_cast
      simp
    rw [List.sum_eq_zero hz, neg_zero]
  · rw [if_neg htot]
    have hT : (0 : ℚ) < counts.sum :=
      lt_of_le_of_ne (List.sum_nonneg hnn) (Ne.symm htot)
    have hmap : counts.map (fun count =>
        let p : ℚ := count / counts.sum
        if p > 0 then -((p : ℝ) * Real.logb 2 (p : ℝ)) else 0) =
      counts.map (fun count => -(((count / counts.sum : ℚ) : ℝ) *
          Real.logb 2 ((count / counts.sum : ℚ) : ℝ))) := by
      apply List.map_congr_left
      intro c hc
      dsimp only
      rcases lt_or_eq_of_le (div_nonneg (hnn c hc) (le_of_lt hT)) with hp | hp
      · rw [if_pos hp]
      · rw [if_neg (by rw [← hp]; exact lt_irrefl 0), ← hp]
        push_cast
        simp
    rw [hmap]
    have hcomp : counts.map (fun count => -(((count / counts.sum : ℚ) : ℝ) *
        Real.logb 2 ((count / counts.sum : ℚ) : ℝ))) =
      (counts.map (fun count => ((count / counts.sum : ℚ) : ℝ) *
        Real.logb 2 ((count / counts.sum : ℚ) : ℝ))).map (fun x => -x) := by
      rw [List.map_map]
      rfl
    rw [hcomp]
    generalize (counts.map (fun count => ((count / counts.sum : ℚ) : ℝ) *
      Real.logb 2 ((count / counts.sum : ℚ) : ℝ))) = l
    induction l with
    | nil => simp
    | cons x xs ihx => rw [List.map_cons, List.sum_cons, List.sum_cons, neg_add, ihx]

theorem phaseB_cases (ref : Int) (trust : ℚ) (reported : Int) (curr : NRecord)
    (next : Option NRecord) :
    phaseB ref trust reported curr next = (ref, true) ∨
      phaseB ref trust reported curr next = (reported, false) := by
  cases next with
  | none => exact Or.inr rfl
  | some nxt =>
    simp only [phaseB]
    split
    · split
      · exact Or.inl rfl
      · exact Or.inr rfl
    · exact Or.inr rfl

theorem phaseB_not_repaired (ref : Int) (trust : ℚ) (reported : Int) (curr : NRecord)
    (next : Option NRecord) (h : (phaseB ref trust reported curr next).2 = false) :
    (phaseB ref trust reported curr next).1 = reported := by
  rcases phaseB_cases ref trust reported curr next with hc | hc
  · rw [hc] at h
    exact Bool.noConfusion h
  · rw [hc]

/-- For a record that reaches phase C, `0 < fle ≤ 2` holds as soon as the
reference duration is at least 1 and the effective duration at least 5000. -/
theorem fleOf_bounds (effective ref : Int) (h1 : 1 ≤ ref) (h2 : 5000 ≤ effective) :
    0 < fleOf effective ref ∧ fleOf effective ref ≤ 2 := by
  rw [fleOf, if_pos (by omega : ref > 0)]
  constructor
  · apply lt_min
    · apply div_pos
      · exact_mod_cast (by omega : (0 : Int) < effective)
      · exact_mod_cast (by omega : (0 : Int) < ref)
    · norm_num
  · exact min_le_right _ _

/-- A non-fused record whose effective duration is below 5000 leaves the
state untouched except possibly for the repaired counter: no score, and no
advance of the previous-record pointer. -/
theorem process_step_dropped (cst : CollectState) (s : ProcState) (curr : NRecord)
    (next : Option NRecord)
    (hf : fuseCheck s.prev_record curr = false)
    (hd : (phaseB (track_stats_of cst curr.track_id).1 (track_stats_of cst curr.track_id).2
      curr.ms_played curr next).1 < 5000) :
    process_step cst s curr next =
      (if (phaseB (track_stats_of cst curr.track_id).1 (track_stats_of cst curr.track_id).2
          curr.ms_played curr next).2 then
        { s with stats.repaired := s.stats.repaired + 1 }
      else s) := by
  simp only [process_step]
  rw [if_neg (by simp [hf])]
  rw [if_pos hd]

theorem bumpCounter_ne_nil (c : DurCounter) (ms : Int) : bumpCounter c ms ≠ [] := by
  rw [bumpCounter, alistUpd]
  split
  · intro hemp
    rw [List.map_eq_nil_iff] at hemp
    rename_i hh
    rw [hemp] at hh
    exact Bool.noConfusion hh
  · intro hemp
    exact List.cons_ne_nil _ _ (List.append_eq_nil.mp hemp).2

/-- Pass-1 invariant: histogram counters are never empty. -/
theorem collect_one_dur_nonempty (st : CollectState) (r : RawEvent)
    (inv : ∀ p ∈ st.duration_index, p.2 ≠ []) :
    ∀ p ∈ (collect_one st r).duration_index, p.2 ≠ [] := by
  intro p hp
  simp only [collect_one] at hp
  repeat' split at hp
  all_goals try dsimp only at hp
  all_goals try exact inv p hp
  all_goals (
    rcases mem_alistUpd _ _ _ _ _ hp with hmem | ⟨y, hy, rfl⟩ | rfl
    · exact inv p hmem
    · exact bumpCounter_ne_nil y.2 _
    · exact bumpCounter_ne_nil [] _)

theorem collect_records_dur_nonempty (records : List RawEvent) :
    ∀ p ∈ (collect_records initState records).duration_index, p.2 ≠ [] := by
  rw [collect_records]
  have base : ∀ p ∈ initState.duration_index, p.2 ≠ [] := by
    intro p hp
    exact absurd hp (List.not_mem_nil p)
  revert base
  generalize initState = st
  intro base
  induction records generalizing st with
  | nil => exact base
  | cons r rs ih => exact ih (collect_one st r) (collect_one_dur_nonempty st r base)

theorem counterTotal_pos (c : DurCounter) (hne : c ≠ []) (hfr : ∀ q ∈ c, 1 ≤ q.2) :
    0 < counterTotal c := by
  match c, hne with
  | q :: cs, _ =>
    rw [counterTotal, List.map_cons, List.sum_cons]
    have := hfr q (List.mem_cons_self q cs)
    omega

/-! ### Claim theorems -/

/-- C4: the claim says a run always completes and yields a report, but
`get_report` accesses `self.eras`, which `_finalize_intelligence` only
assigns when at least one month was aggregated.  On an empty corpus, and on a
corpus whose only record is collected but never scores (0 ms reported, as in
`test_fle_division_by_zero`), the run raises `AttributeError` instead of
returning a report. -/
theorem C4_empty_report_raises :
    get_report (runAnalyzer []) 10 =
      Except.error "AttributeError: SpotifyAnalyzer object has no attribute eras" ∧
    get_report (runAnalyzer [eventZeroMs]) 10 =
      Except.error "AttributeError: SpotifyAnalyzer object has no attribute eras" ∧
    (collect_records initState [eventZeroMs]).all_records.length = 1 :=
  ⟨by with_unfolding_all rfl, by with_unfolding_all rfl, by with_unfolding_all rfl⟩

/-- C5: after any pass 1, every track's `referenceDurationMs` is at least 1
(the default for tracks without a histogram, and a mode strictly above
5000 ms otherwise), and hence the FLE `min(effective / ref, 2.0)` of any
record that reaches scoring (`effective ≥ 5000`) satisfies `0 < fle ≤ 2`. -/
theorem C5_fle_bounds :
    (∀ (records : List RawEvent) (tid : TrackId),
      1 ≤ (track_stats_of (collect_records initState records) tid).1)
    ∧ (∀ (records : List RawEvent) (tid : TrackId) (effective : Int),
        5000 ≤ effective →
        0 < fleOf effective (track_stats_of (collect_records initState records) tid).1 ∧
        fleOf effective (track_stats_of (collect_records initState records) tid).1 ≤ 2) := by
  refine ⟨ref_ge_one_pipeline, ?_⟩
  intro records tid effective he
  exact fleOf_bounds effective _ (ref_ge_one_pipeline records tid) he

/-- Witness for C5 at the gap-repair corpus: the reference of Song A is
≥ 1, and a 180000 ms effective duration yields `0 < fle ≤ 2`. -/
theorem C5_fle_bounds_witness :
    (5000 : Int) ≤ 180000 ∧
    (0 < fleOf 180000 (track_stats_of (collect_records initState corpusGapRepair)
        ("song a", "artist x")).1 ∧
      fleOf 180000 (track_stats_of (collect_records initState corpusGapRepair)
        ("song a", "artist x")).1 ≤ 2) :=
  ⟨by norm_num,
    C5_fle_bounds.2 corpusGapRepair ("song a", "artist x") 180000 (by norm_num)⟩

/-- C9: the claim (and the repo's own tests `test_malformed_timestamp` and
`test_empty_track_name_skipped`) expect rejected raw events to increment
`stats["skipped"]`, but `collect_records` never touches that counter: it
stays 0 on every input, even when a record is rejected (here: a track name
that normalizes to empty, so `all_records` stays empty). -/
theorem C9_skipped_never_incremented :
    (∀ records : List RawEvent, (collect_records initState records).stats.skipped = 0)
    ∧ (collect_records initState [eventNoTrack]).all_records = []
    ∧ (collect_records initState [eventNoTrack]).stats.skipped = 0 := by
  refine ⟨?_, by with_unfolding_all rfl, by with_unfolding_all rfl⟩
  intro records
  rw [collect_records_skipped]
  rfl

/-- C3 (counterexample): in `corpusDropped` the second record is dropped
(`effective_ms = 2000 < 5000`), yet the previous-record pointer still holds
the first record afterwards — the dropped record did not become the
predecessor.  Consequently the third record (same track, same timestamp as
the dropped one) is not fused: the run fuses nothing and scores it. -/
theorem C3_drop_counterexample :
    (phaseB (track_stats_of cstDropped ("song t", "artist z")).1
        (track_stats_of cstDropped ("song t", "artist z")).2
        nDrop2.ms_played nDrop2 (some nDrop3)).1 < 5000
    ∧ sDropFirst.prev_record = some nDrop1
    ∧ (process_step cstDropped sDropFirst nDrop2 (some nDrop3)).prev_record = some nDrop1
    ∧ nDrop1 ≠ nDrop2
    ∧ (process_data cstDropped).stats.fused = 0
    ∧ (alistGet (process_data cstDropped).alltime_data.songs ("song t", "artist z")).getD 0 = 2 :=
  ⟨of_decide_eq_true (by with_unfolding_all rfl), by with_unfolding_all rfl,
    by with_unfolding_all rfl, of_decide_eq_true (by with_unfolding_all rfl),
    by with_unfolding_all rfl, by with_unfolding_all rfl⟩

/-- C3 (amended): a non-fused record whose effective duration is below 5000
produces no score, and does NOT advance the previous-record pointer — the
pointer only advances when a record is scored. -/
theorem C3_drop_no_advance (cst : CollectState) (s : ProcState) (curr : NRecord)
    (next : Option NRecord)
    (hf : fuseCheck s.prev_record curr = false)
    (hd : (phaseB (track_stats_of cst curr.track_id).1
      (track_stats_of cst curr.track_id).2 curr.ms_played curr next).1 < 5000) :
    (process_step cst s curr next).prev_record = s.prev_record
    ∧ (process_step cst s curr next).monthly_data = s.monthly_data
    ∧ (process_step cst s curr next).yearly_data = s.yearly_data
    ∧ (process_step cst s curr next).alltime_data = s.alltime_data
    ∧ (process_step cst s curr next).stats.processed = s.stats.processed := by
  rw [process_step_dropped cst s curr next hf hd]
  split
  · exact ⟨rfl, rfl, rfl, rfl, rfl⟩
  · exact ⟨rfl, rfl, rfl, rfl, rfl⟩

/-- Witness for C3 at the dropped record of `corpusDropped`. -/
theorem C3_drop_no_advance_witness :
    fuseCheck sDropFirst.prev_record nDrop2 = false
    ∧ (phaseB (track_stats_of cstDropped nDrop2.track_id).1
        (track_stats_of cstDropped nDrop2.track_id).2
        nDrop2.ms_played nDrop2 (some nDrop3)).1 < 5000
    ∧ (process_step cstDropped sDropFirst nDrop2 (some nDrop3)).prev_record =
        sDropFirst.prev_record :=
  ⟨by with_unfolding_all rfl, of_decide_eq_true (by with_unfolding_all rfl),
    (C3_drop_no_advance cstDropped sDropFirst nDrop2 (some nDrop3)
      (by with_unfolding_all rfl) (of_decide_eq_true (by with_unfolding_all rfl))).1⟩

/-- C6 (counterexample): for two equal-scored songs of one artist in
2023-01, the reported monthly entropy is the entropy of the SONG
distribution, 1 bit, whereas the claim's artist-distribution entropy is 0:
`_finalize_intelligence` passes `data["songs"]`, not `data["artists"]`, to
`_calculate_entropy`. -/
theorem C6_entropy_counterexample :
    (runAnalyzer corpusEntropySongs).monthly_entropy =
      [("2023-01", calculate_entropy [1, 1])]
    ∧ calculate_entropy [1, 1] = 1
    ∧ (monthArtists (process_data (collect_records initState corpusEntropySongs)).monthly_data
        "2023-01").map (·.2) = [2]
    ∧ calculate_entropy [2] = 0
    ∧ (1 : ℝ) ≠ 0 := by
  refine ⟨by with_unfolding_all rfl, ?_, by with_unfolding_all rfl, ?_, by norm_num⟩
  · rw [calculate_entropy]
    norm_num
    rw [show (1 / 2 : ℝ) = 2⁻¹ by norm_num]
    rw [Real.logb_inv, Real.logb_self_eq_one (by norm_num)]
    norm_num
  · rw [calculate_entropy]
    norm_num

/-- C6 (amended): the per-month entropy values the run exposes are the
Shannon entropy of the month's SONG-score distribution (not the artist
distribution), and on nonnegative counts the guarded source formula equals
the plain `-Σ p·log2(p)` over normalized shares. -/
theorem C6_entropy_song_distribution :
    (∀ records : List RawEvent,
      (runAnalyzer records).monthly_entropy =
        (process_data (collect_records initState records)).monthly_data.map
          (fun p => (p.1, calculate_entropy (p.2.songs.map (·.2)))))
    ∧ (∀ counts : List ℚ, (∀ c ∈ counts, 0 ≤ c) →
        calculate_entropy counts =
          -((counts.map (fun count => ((count / counts.sum : ℚ) : ℝ) *
              Real.logb 2 ((count / counts.sum : ℚ) : ℝ))).sum)) := by
  constructor
  · intro records
    rw [runAnalyzer]
    rcases Bool.eq_false_or_eq_true
        (collect_records initState records).all_records.isEmpty with he | he
    · rw [if_pos he]
      rw [process_data, if_pos he]
      rfl
    · rw [if_neg (by simp [he])]
  · exact calculate_entropy_eq

/-- Witness for C6: the nonnegativity hypothesis discharged at `[1, 1]`. -/
theorem C6_entropy_song_distribution_witness :
    (∀ c ∈ [(1 : ℚ), 1], 0 ≤ c) ∧
    calculate_entropy [1, 1] =
      -((([(1 : ℚ), 1]).map (fun count => ((count / ([(1 : ℚ), 1]).sum : ℚ) : ℝ) *
          Real.logb 2 ((count / ([(1 : ℚ), 1]).sum : ℚ) : ℝ))).sum) :=
  ⟨by norm_num, C6_entropy_song_distribution.2 [1, 1] (by norm_num)⟩

/-- C7 (counterexample): on `p = {a: 1}`, `q = {a: 2}` the claim's
renormalized smoothed KL is exactly 0 (both smoothed one-point
distributions renormalize to the same point mass), but the code's
divergence is `1.01 · log2(1.01 / 1.005) ≠ 0` because each smoothed count
is divided by the UNSMOOTHED total of its distribution. -/
theorem C7_kl_counterexample :
    calculate_kl_divergence klP klQ ≠ kl_smoothed_renormalized klP klQ
    ∧ kl_smoothed_renormalized klP klQ = 0 := by
  have hspec : kl_smoothed_renormalized klP klQ = 0 := by
    rw [kl_smoothed_renormalized]
    rw [show unionKeys klP klQ = ["a"] from by with_unfolding_all rfl]
    simp only [List.map_cons, List.map_nil, List.sum_cons, List.sum_nil, alistGet,
      List.find?, klP, klQ]
    norm_num
  refine ⟨?_, hspec⟩
  rw [hspec]
  rw [calculate_kl_divergence]
  rw [show unionKeys klP klQ = ["a"] from by with_unfolding_all rfl]
  simp only [List.map_cons, List.map_nil, List.sum_cons, List.sum_nil, alistGet,
    List.find?, klP, klQ]
  norm_num

/-- C7 (amended): when both totals are nonzero, the divergence the era
segmenter compares against 1.3 adds 0.01 to every key of the union but
divides by the UNSMOOTHED totals; the smoothed vectors are not renormalized
(on `klP` the smoothed p-vector sums to 1.01, not 1). -/
theorem C7_kl_unnormalized :
    (∀ p q : List (String × ℚ),
      (p.map (·.2)).sum ≠ 0 → (q.map (·.2)).sum ≠ 0 →
      calculate_kl_divergence p q = ((unionKeys p q).map (fun k =>
        (((((alistGet p k).getD 0 + 1/100) / (p.map (·.2)).sum : ℚ)) : ℝ) *
          Real.logb 2 (((((alistGet p k).getD 0 + 1/100) / (p.map (·.2)).sum : ℚ) : ℝ) /
            ((((alistGet q k).getD 0 + 1/100) / (q.map (·.2)).sum : ℚ) : ℝ)))).sum)
    ∧ ((unionKeys klP klQ).map
        (fun k => ((alistGet klP k).getD 0 + 1/100) / (klP.map (·.2)).sum)).sum = 101/100
    ∧ (101/100 : ℚ) ≠ 1 := by
  refine ⟨?_, by with_unfolding_all rfl, by norm_num⟩
  intro p q hp hq
  rw [calculate_kl_divergence]
  rw [if_neg (by push_neg; exact ⟨hp, hq⟩)]

/-- Witness for C7: the nonzero-total hypotheses discharged at `klP, klQ`. -/
theorem C7_kl_unnormalized_witness :
    (klP.map (·.2)).sum ≠ 0 ∧ (klQ.map (·.2)).sum ≠ 0 ∧
    calculate_kl_divergence klP klQ = ((unionKeys klP klQ).map (fun k =>
      (((((alistGet klP k).getD 0 + 1/100) / (klP.map (·.2)).sum : ℚ)) : ℝ) *
        Real.logb 2 (((((alistGet klP k).getD 0 + 1/100) / (klP.map (·.2)).sum : ℚ) : ℝ) /
          ((((alistGet klQ k).getD 0 + 1/100) / (klQ.map (·.2)).sum : ℚ) : ℝ)))).sum :=
  ⟨by rw [klP]; norm_num, by rw [klQ]; norm_num,
    C7_kl_unnormalized.1 klP klQ (by rw [klP]; norm_num) (by rw [klQ]; norm_num)⟩

/-- C2 (counterexample): a single observation of exactly 5000 ms is NOT
admitted to the histogram (the code tests `ms_played > 5000`, strictly), so
the track keeps the defaults `(1, 0)`; under the claim's "durations ≥
5000 ms" histogram the reference would be 5000 with trust 1. -/
theorem C2_boundary_counterexample :
    (collect_records initState corpusBoundary).all_records.map
        (fun r => (r.track_id, r.ms_played)) =
      [((("song e", "artist e") : TrackId), (5000 : Int))]
    ∧ (collect_records initState corpusBoundary).duration_index = []
    ∧ track_stats_of (collect_records initState corpusBoundary) ("song e", "artist e") = (1, 0)
    ∧ ¬(((1 : Int), (0 : ℚ)) = ((5000 : Int), (1 : ℚ))) :=
  ⟨by with_unfolding_all rfl, by with_unfolding_all rfl, by with_unfolding_all rfl,
    by norm_num⟩

/-- C2 (amended): the histogram of a track counts exactly its accepted
observations STRICTLY greater than 5000 ms; for a track with a nonempty
histogram, `referenceDurationMs` is a histogram value of maximal frequency
and the largest among the tied modes, and `trust` is the frequency-weighted
share of values ≥ 80% of the reference; tracks without a histogram keep
`(1, 0)`. -/
theorem C2_reference_trust :
    (∀ (records : List RawEvent) (tid : TrackId) (v : Int),
      durCount (collect_records initState records) tid v =
        histCount (collect_records initState records).all_records tid v)
    ∧ (∀ (records : List RawEvent) (tid : TrackId),
        alistGet (collect_records initState records).duration_index tid = none →
        track_stats_of (collect_records initState records) tid = (1, 0))
    ∧ (∀ (records : List RawEvent) (tid : TrackId) (c : DurCounter),
        alistGet (collect_records initState records).duration_index tid = some c →
        c ≠ []
        ∧ track_stats_of (collect_records initState records) tid =
            (refOf c,
              ((((c.filter (fun p => (p.1 : ℚ) ≥ 4/5 * (refOf c : ℚ))).map (·.2)).sum : ℚ)) /
                (counterTotal c : ℚ))
        ∧ (∃ p ∈ c, p.1 = refOf c ∧ p.2 = maxFreqOf c)
        ∧ (∀ p ∈ c, p.2 ≤ maxFreqOf c)
        ∧ (∀ p ∈ c, p.2 = maxFreqOf c → p.1 ≤ refOf c)) := by
  refine ⟨collect_records_dur_hist, ?_, ?_⟩
  · intro records tid hget
    rw [track_stats_of, hget]
  · intro records tid c hget
    have hne : c ≠ [] := by
      rcases alistGet_mem _ _ _ hget with ⟨p, hp, rfl⟩
      exact collect_records_dur_nonempty records p hp
    have hwf : ∀ q ∈ c, q.1 > 5000 ∧ 1 ≤ q.2 := by
      rcases alistGet_mem _ _ _ hget with ⟨p, hp, rfl⟩
      exact collect_records_durWF records p hp
    refine ⟨hne, ?_, refOf_mem c hne, freq_le_maxFreqOf c, mode_le_refOf c⟩
    rw [track_stats_of, hget]
    dsimp only
    rw [if_neg (fun h => hne (by simpa using h))]
    simp only [trustOf]
    rw [if_pos (counterTotal_pos c hne (fun q hq => (hwf q hq).2))]

/-- Witness for C2 at Song A of the gap-repair corpus: the histogram is
`{180000: 10, 10000: 1}`, whose largest mode is 180000 and whose trust is
10/11. -/
theorem C2_reference_trust_witness :
    alistGet cstGap.duration_index ("song a", "artist x") =
      some [(180000, 10), (10000, 1)]
    ∧ track_stats_of cstGap ("song a", "artist x") =
        (refOf [(180000, 10), (10000, 1)],
          (((([((180000 : Int), (10 : Nat)), (10000, 1)]).filter
              (fun p => (p.1 : ℚ) ≥
                4/5 * (refOf [((180000 : Int), (10 : Nat)), (10000, 1)] : ℚ))).map
                  (·.2)).sum : ℚ) /
            (counterTotal [((180000 : Int), (10 : Nat)), (10000, 1)] : ℚ)) := by
  have hget : alistGet cstGap.duration_index ("song a", "artist x") =
      some [(180000, 10), (10000, 1)] := by with_unfolding_all rfl
  exact ⟨hget,
    ((C2_reference_trust.2.2 corpusGapRepair ("song a", "artist x") _ hget).2).1⟩

/-- C1: in the chronological pass, a non-fused record with a successor gets
`effectiveDurationMs = ref` and bumps the repaired counter exactly when
`reported < 0.15·ref`, `0.8·ref < gap < 1.2·ref` and `trust > 0.5`; in
every other case (including no successor) the effective duration is the
reported one and the counter is untouched.  On the spec's gap-repair
scenario the glitch listen is repaired: the run repairs exactly one record
and Song A accumulates 11.0 FLE — 10.0 from the ten full prior listens plus
1.0 (> 0.8) from the repaired listen. -/
theorem C1_gap_repair :
    (∀ (cst : CollectState) (s : ProcState) (curr nxt : NRecord) (ref : Int) (trust : ℚ),
      track_stats_of cst curr.track_id = (ref, trust) →
      fuseCheck s.prev_record curr = false →
      (((curr.ms_played : ℚ) < 3/20 * (ref : ℚ)
          ∧ (((nxt.ts : Int) - (curr.ts : Int) : Int) : ℚ) > 4/5 * (ref : ℚ)
          ∧ (((nxt.ts : Int) - (curr.ts : Int) : Int) : ℚ) < 6/5 * (ref : ℚ)
          ∧ trust > 1/2) →
        phaseB ref trust curr.ms_played curr (some nxt) = (ref, true)
        ∧ (process_step cst s curr (some nxt)).stats.repaired = s.stats.repaired + 1)
      ∧ (¬((curr.ms_played : ℚ) < 3/20 * (ref : ℚ)
          ∧ (((nxt.ts : Int) - (curr.ts : Int) : Int) : ℚ) > 4/5 * (ref : ℚ)
          ∧ (((nxt.ts : Int) - (curr.ts : Int) : Int) : ℚ) < 6/5 * (ref : ℚ)
          ∧ trust > 1/2) →
        phaseB ref trust curr.ms_played curr (some nxt) = (curr.ms_played, false)
        ∧ (process_step cst s curr (some nxt)).stats.repaired = s.stats.repaired))
    ∧ (∀ (ref : Int) (trust : ℚ) (reported : Int) (curr : NRecord),
        phaseB ref trust reported curr none = (reported, false))
    ∧ (process_data cstGap).stats.repaired = 1
    ∧ (alistGet (process_data cstGap).alltime_data.songs ("song a", "artist x")).getD 0 = 11 := by
  refine ⟨?_, fun ref trust reported curr => rfl,
    by with_unfolding_all rfl, by with_unfolding_all rfl⟩
  intro cst s curr nxt ref trust hrt hfuse
  have h1 : (track_stats_of cst curr.track_id).1 = ref := by rw [hrt]
  have h2 : (track_stats_of cst curr.track_id).2 = trust := by rw [hrt]
  constructor
  · intro hc
    have hpb : phaseB ref trust curr.ms_played curr (some nxt) = (ref, true) := by
      simp only [phaseB]
      rw [if_pos ⟨hc.1, hc.2.1, hc.2.2.1⟩, if_pos hc.2.2.2]
    refine ⟨hpb, ?_⟩
    simp only [process_step, h1, h2]
    rw [if_neg (by simp [hfuse])]
    rw [hpb]
    rw [if_pos (show (((ref, true) : Int × Bool)).2 = true from rfl)]
    split
    · rfl
    · rfl
  · intro hc
    have hpb : phaseB ref trust curr.ms_played curr (some nxt) = (curr.ms_played, false) := by
      simp only [phaseB]
      by_cases hd : (curr.ms_played : ℚ) < 3/20 * (ref : ℚ)
          ∧ (((nxt.ts : Int) - (curr.ts : Int) : Int) : ℚ) > 4/5 * (ref : ℚ)
          ∧ (((nxt.ts : Int) - (curr.ts : Int) : Int) : ℚ) < 6/5 * (ref : ℚ)
      · rw [if_pos hd, if_neg (fun ht => hc ⟨hd.1, hd.2.1, hd.2.2, ht⟩)]
      · rw [if_neg hd]
    refine ⟨hpb, ?_⟩
    simp only [process_step, h1, h2]
    rw [if_neg (by simp [hfuse])]
    rw [hpb]
    rw [if_neg (show ¬((((curr.ms_played, false) : Int × Bool)).2 = true) from by simp)]
    split
    · rfl
    · rfl

/-- Witness for C1 at the glitch record of the gap-repair corpus: all three
repair conditions hold (10000 < 27000; 144000 < 185000 < 216000;
10/11 > 1/2), the phase-B outcome is `(180000, true)`, and the repaired
counter increments. -/
theorem C1_gap_repair_witness :
    track_stats_of cstGap nGapGlitch.track_id = (180000, 10/11)
    ∧ fuseCheck (initProc cstGap.stats).prev_record nGapGlitch = false
    ∧ ((nGapGlitch.ms_played : ℚ) < 3/20 * ((180000 : Int) : ℚ)
        ∧ (((nGapB.ts : Int) - (nGapGlitch.ts : Int) : Int) : ℚ) > 4/5 * ((180000 : Int) : ℚ)
        ∧ (((nGapB.ts : Int) - (nGapGlitch.ts : Int) : Int) : ℚ) < 6/5 * ((180000 : Int) : ℚ)
        ∧ (10/11 : ℚ) > 1/2)
    ∧ phaseB 180000 (10/11) nGapGlitch.ms_played nGapGlitch (some nGapB) = (180000, true)
    ∧ (process_step cstGap (initProc cstGap.stats) nGapGlitch (some nGapB)).stats.repaired =
        (initProc cstGap.stats).stats.repaired + 1 := by
  have hrt : track_stats_of cstGap nGapGlitch.track_id = (180000, 10/11) := by
    with_unfolding_all rfl
  have hfuse : fuseCheck (initProc cstGap.stats).prev_record nGapGlitch = false := by
    with_unfolding_all rfl
  have hc : (nGapGlitch.ms_played : ℚ) < 3/20 * ((180000 : Int) : ℚ)
      ∧ (((nGapB.ts : Int) - (nGapGlitch.ts : Int) : Int) : ℚ) > 4/5 * ((180000 : Int) : ℚ)
      ∧ (((nGapB.ts : Int) - (nGapGlitch.ts : Int) : Int) : ℚ) < 6/5 * ((180000 : Int) : ℚ)
      ∧ (10/11 : ℚ) > 1/2 := of_decide_eq_true (by with_unfolding_all rfl)
  have h := (C1_gap_repair.1 cstGap (initProc cstGap.stats) nGapGlitch nGapB 180000 (10/11)
    hrt hfuse).1 hc
  exact ⟨hrt, hfuse, hc, h.1, h.2⟩

/-- C8: replaying a record whose composite key `(timestamp string, reported
duration, RawTrackID)` is already in the dedup set increments the duplicates
counter by exactly 1 and leaves the accepted records, the histogram, the
dedup set — and therefore every cumulative score of pass 2 — unchanged;
while two raw events with identical timestamp and duration whose raw names
differ ("Song C" vs "Song C - Live") are both kept as separate listens even
though they collide post-canonicalization. -/
theorem C8_dedup_replay :
    (∀ (st : CollectState) (e : RawEvent) (ts_str : String) (dt : DateTimeUTC),
      e.ts = some ts_str →
      ts_str.isEmpty = false →
      strptimeUTC ts_str = some dt →
      (normalize_text (pyOrStr e.master_metadata_track_name e.episode_name)).isEmpty = false →
      (normalize_text (pyOrStr e.master_metadata_album_artist_name e.episode_show_name)).isEmpty
        = false →
      st.processed_ids.contains
        (ts_str, resolveMsPlayed e.ms_played,
          (strLower (normalize_text (pyOrStr e.master_metadata_track_name e.episode_name)),
            strLower (normalize_text
              (pyOrStr e.master_metadata_album_artist_name e.episode_show_name)))) = true →
      (collect_one st e).stats.duplicates = st.stats.duplicates + 1
      ∧ (collect_one st e).all_records = st.all_records
      ∧ (collect_one st e).duration_index = st.duration_index
      ∧ (collect_one st e).processed_ids = st.processed_ids
      ∧ coreOf (process_data (collect_one st e)) = coreOf (process_data st))
    ∧ ((collect_records initState [eventPlainC, eventLiveC]).all_records.map (·.raw_track_id) =
        [("song c", "artist w"), ("song c - live", "artist w")]
      ∧ (collect_records initState [eventPlainC, eventLiveC]).all_records.map (·.track_id) =
        [("song c", "artist w"), ("song c", "artist w")]
      ∧ (collect_records initState [eventPlainC, eventLiveC]).stats.duplicates = 0) := by
  constructor
  · intro st e ts_str dt h1 h2 h3 h4 h5 h6
    simp only [collect_one, h1, h3]
    rw [if_neg (show ¬(ts_str.isEmpty = true) from by simp [h2])]
    rw [if_neg (show
      ¬(((normalize_text (pyOrStr e.master_metadata_track_name e.episode_name)).isEmpty
        || (normalize_text
          (pyOrStr e.master_metadata_album_artist_name e.episode_show_name)).isEmpty) = true)
      from by simp [h4, h5])]
    repeat' split
    all_goals exact ⟨rfl, rfl, rfl, rfl, process_data_core _ _ rfl rfl⟩
  · exact ⟨by with_unfolding_all rfl, by with_unfolding_all rfl, by with_unfolding_all rfl⟩

/-- Witness for C8: feeding `eventReplay` again after a run that already
accepted it bumps duplicates to 1 and leaves records, histogram and
pass-2 aggregation state unchanged. -/
theorem C8_dedup_replay_witness :
    (collect_records initState [eventReplay]).processed_ids.contains
      ("2023-01-01T12:00:00Z", resolveMsPlayed eventReplay.ms_played,
        (strLower (normalize_text
          (pyOrStr eventReplay.master_metadata_track_name eventReplay.episode_name)),
          strLower (normalize_text (pyOrStr eventReplay.master_metadata_album_artist_name
            eventReplay.episode_show_name)))) = true
    ∧ (collect_one (collect_records initState [eventReplay]) eventReplay).stats.duplicates =
        (collect_records initState [eventReplay]).stats.duplicates + 1
    ∧ (collect_one (collect_records initState [eventReplay]) eventReplay).all_records =
        (collect_records initState [eventReplay]).all_records
    ∧ coreOf (process_data (collect_one (collect_records initState [eventReplay]) eventReplay)) =
        coreOf (process_data (collect_records initState [eventReplay])) := by
  have h6 : (collect_records initState [eventReplay]).processed_ids.contains
      ("2023-01-01T12:00:00Z", resolveMsPlayed eventReplay.ms_played,
        (strLower (normalize_text
          (pyOrStr eventReplay.master_metadata_track_name eventReplay.episode_name)),
          strLower (normalize_text (pyOrStr eventReplay.master_metadata_album_artist_name
            eventReplay.episode_show_name)))) = true := by with_unfolding_all rfl
  have h := C8_dedup_replay.1 (collect_records initState [eventReplay]) eventReplay
    "2023-01-01T12:00:00Z" ⟨2023, 1, 1, 12, 0, 0⟩ (by with_unfolding_all rfl)
    (by with_unfolding_all rfl) (by with_unfolding_all rfl) (by with_unfolding_all rfl)
    (by with_unfolding_all rfl) h6
  exact ⟨h6, h.1, h.2.1, h.2.2.2.2⟩

/-- C10 (counterexample): a record with `null` duration is NOT skipped — it
is collected with `ms_played = 0` (12 accepted records below) — and it can
even appear in a ranking: in `corpusNullGlitch` the null-duration February
listen of Song A is gap-repaired to the 180000 ms reference, scores 1.0,
and shows up in the February monthly ranking. -/
theorem C10_null_counterexample :
    cstNull.all_records.length = 12
    ∧ cstNull.all_records.map (·.ms_played) =
        [180000, 180000, 180000, 180000, 180000,
          180000, 180000, 180000, 180000, 180000, 0, 180000]
    ∧ (alistGet ((alistGet (process_data cstNull).monthly_data "2023-02").getD
        emptyBucket).songs ("song a", "artist x")).getD 0 = 1
    ∧ ((calculate_fle_rankings cstNull
        ((alistGet (process_data cstNull).monthly_data "2023-02").getD emptyBucket) 10).songs).map
        (fun s => (s.name, s.artist, s.score)) =
      [("Song A", "Artist X", 1), ("Song B", "Artist Y", 1)] :=
  ⟨by with_unfolding_all rfl, by with_unfolding_all rfl, by with_unfolding_all rfl,
    by with_unfolding_all rfl⟩

/-- C10 (amended): a record whose track (resp. artist) fields are both null
is rejected without raising; a null duration is coerced to 0 ms and the
record is kept; an unrepaired 0 ms record is dropped at scoring and leaves
the pass-2 state untouched (but a gap-repaired one scores, see the
counterexample). -/
theorem C10_null_handling :
    (∀ (st : CollectState) (e : RawEvent),
      e.master_metadata_track_name = none → e.episode_name = none → collect_one st e = st)
    ∧ (∀ (st : CollectState) (e : RawEvent),
      e.master_metadata_album_artist_name = none → e.episode_show_name = none →
        collect_one st e = st)
    ∧ resolveMsPlayed none = 0
    ∧ (∀ (cst : CollectState) (s : ProcState) (curr : NRecord) (next : Option NRecord),
        curr.ms_played = 0 →
        fuseCheck s.prev_record curr = false →
        (phaseB (track_stats_of cst curr.track_id).1 (track_stats_of cst curr.track_id).2
          curr.ms_played curr next).2 = false →
        process_step cst s curr next = s) := by
  refine ⟨?_, ?_, rfl, ?_⟩
  · intro st e h1 h2
    simp only [collect_one, h1, h2, pyOrStr, normalize_text]
    cases e.ts with
    | none => rfl
    | some ts_str =>
      dsimp only
      by_cases hemp : ts_str.isEmpty = true
      · rw [if_pos hemp]
      · rw [if_neg hemp]
        cases strptimeUTC ts_str with
        | none => rfl
        | some dt =>
          dsimp only
          rw [if_pos (by simp [show String.isEmpty "" = true from rfl])]
  · intro st e h1 h2
    simp only [collect_one, h1, h2, pyOrStr, normalize_text]
    cases e.ts with
    | none => rfl
    | some ts_str =>
      dsimp only
      by_cases hemp : ts_str.isEmpty = true
      · rw [if_pos hemp]
      · rw [if_neg hemp]
        cases strptimeUTC ts_str with
        | none => rfl
        | some dt =>
          dsimp only
          rw [if_pos (by simp [show String.isEmpty "" = true from rfl])]
  · intro cst s curr next h0 hf hpb
    have h1 := phaseB_not_repaired _ _ _ _ _ hpb
    rw [process_step_dropped cst s curr next hf (by rw [h1, h0]; norm_num)]
    rw [if_neg (by simp [hpb])]

/-- Witness for C10: a concrete all-null-track event is rejected, and a
concrete 0 ms record with no successor is dropped without touching the
state. -/
theorem C10_null_handling_witness :
    (RawEvent.mk (some "2023-01-01T00:00:00Z") none none (some "Artist") none
        (some 180000)).master_metadata_track_name = none
    ∧ collect_one initState (RawEvent.mk (some "2023-01-01T00:00:00Z") none none
        (some "Artist") none (some 180000)) = initState
    ∧ (NRecord.mk 0 "x" 0 ("a", "b") ("a", "b") 0).ms_played = 0
    ∧ process_step initState (initProc initStats)
        (NRecord.mk 0 "x" 0 ("a", "b") ("a", "b") 0) none = initProc initStats := by
  refine ⟨rfl, ?_, rfl, ?_⟩
  · exact C10_null_handling.1 initState _ rfl rfl
  · exact C10_null_handling.2.2.2 initState (initProc initStats) _ none rfl rfl rfl

end SpotifyFLE
